import Mathlib

/-!
# hidbrightness: step table, feature-report codec and controller

A shallow embedding of `src/main.cc`.

Conventions of the embedding.

* `uint16_t` and `u_char` values are natural numbers; every conversion the
  C++ performs to one of these types is written as an explicit `% 65536` or
  `% 256`.
* The entries of `steps` have C++ type `int`; they are integers here, and the
  comparisons of the two lambdas take place in `Int`, after the promotion of
  the `uint16_t` argument.
* `std::array<u_char, 7>` is a list of naturals; `buffer[i]` is `getD i 0`,
  read as a `u_char` (`% 256`).
* A `char*` that may be null is an `Option String`, with `none` for the null
  pointer.
* The hidapi library is not part of the repository.  Its four entry points
  that return data are the fields of `Hid`; every call that `main` makes to
  the library is recorded, in order, in a list of `HidCall`.
* A failed `assert` aborts the run: `set_brightness` then has no result, and
  the run has no exit status.
-/

namespace HidBrightness

/-! ## Constants -/

/-- Brightness steps for Apple StudioDisplay (2022): `steps`, a `std::array` of `int`. -/
def steps : List Int :=
  [400, 1424, 2395, 3566, 4985, 6693, 8733, 11152, 14000,
   17331, 21019, 25689, 30854, 36778, 43547, 51254, 60000]

/-- The struct `Display`; all four members are `uint16_t`. -/
structure Display where
  vendorID : Nat
  productID : Nat
  minBrightness : Nat
  maxBrightness : Nat
deriving Repr, DecidableEq

/-- The constant `kAppleStudioDisplay`. -/
def kAppleStudioDisplay : Display :=
  { vendorID := 0x05ac, productID := 0x1114, minBrightness := 400, maxBrightness := 60000 }

/-- The value of `EXIT_SUCCESS` from `<cstdlib>`. -/
def EXIT_SUCCESS : Nat := 0

/-- The value of `EXIT_FAILURE` from `<cstdlib>`. -/
def EXIT_FAILURE : Nat := 1

/-! ## Step table lookups -/

/-- The function template `next_value`: scan the range from `begin` to `end`
(here the list `range`) and return the first element for which `doneFn`
holds, converted to `uint16_t` on the way into the `std::optional`. -/
def next_value (range : List Int) (doneFn : Int → Bool) : Option Nat :=
  match range with
  | [] => none
  | step :: rest =>
    if doneFn step then some (step % 65536).toNat else next_value rest doneFn

/-- The function `next_brightness`: forward scan with `step > value`. -/
def next_brightness (value : Nat) : Option Nat :=
  next_value steps (fun step => decide (step > (value : Int)))

/-- The function `prev_brightness`: scan over the reverse iterators
`crbegin .. crend` with `step < value`. -/
def prev_brightness (value : Nat) : Option Nat :=
  next_value steps.reverse (fun step => decide (step < (value : Int)))

/-! ## Feature-report codec -/

/-- The value `get_brightness` returns for the buffer contents left by a
successful `hid_get_feature_report`: the return expression
`static_cast<uint16_t>(buffer[1]) + (static_cast<uint16_t>(buffer[2]) << 8)`,
where `buffer[1]` and `buffer[2]` are read as `u_char`, each is cast to
`uint16_t`, the sum is computed in `int` and converted to `uint16_t`. -/
def get_brightness_value (buffer : List Nat) : Nat :=
  (((buffer.getD 1 0) % 256) % 65536 + ((((buffer.getD 2 0) % 256) % 65536) <<< 8)) % 65536

/-- The initialiser of `buffer` in `set_brightness`: the 7-byte feature report
sent for `val`. -/
def set_brightness_buffer (val : Nat) : List Nat :=
  [0x01,
   (val &&& 0x00ff) % 256,
   ((val >>> 8) &&& 0x00ff) % 256,
   0x00,
   0x00,
   0x00,
   0x00]

/-- A `std::array<u_char, 7>`: seven entries, each a byte. -/
def IsReportBuffer (buffer : List Nat) : Prop :=
  buffer.length = 7 ∧ ∀ b ∈ buffer, b < 256

instance (buffer : List Nat) : Decidable (IsReportBuffer buffer) := by
  unfold IsReportBuffer; infer_instance

/-- Every entry of the range is representable as `uint16_t`. -/
def InU16 (l : List Int) : Prop := ∀ x ∈ l, 0 ≤ x ∧ x < 65536

/-! ## The hidapi library -/

/-- The two members of hidapi's `hid_device_info` that the program reads; the
`next` pointer is the tail of the list the entry sits in.  The member `path`
is a `char*`: none is the null pointer. -/
structure hid_device_info where
  path : Option String
  interface_number : Int
deriving Repr, DecidableEq

/-- The answers of the hidapi library.
* `hid_enumerate vendorID productID`: the linked list returned (`[]` for a null pointer).
* `hid_open_path path`: whether the returned handle is non-null.
* `hid_get_feature_report buffer`: the return value and the contents of the buffer afterwards.
* `hid_send_feature_report buffer`: the return value. -/
structure Hid where
  hid_enumerate : Nat → Nat → List hid_device_info
  hid_open_path : String → Bool
  hid_get_feature_report : List Nat → Int × List Nat
  hid_send_feature_report : List Nat → Int

/-- A call into the hidapi library, with its arguments. -/
inductive HidCall where
  | hid_init
  | hid_exit
  | hid_enumerate (vendorID productID : Nat)
  | hid_free_enumeration
  | hid_open_path (path : String)
  | hid_close
  | hid_get_feature_report (buffer : List Nat)
  | hid_send_feature_report (buffer : List Nat)
deriving Repr, DecidableEq

/-! ## Device discovery and transport -/

/-- The `while` loop of `find_device_path`, giving the value of the local
`char* path` after it: the loop walks the enumeration and stops at the first
entry whose `interface_number` equals `interfaceID`, where it copies the
pointer `device_info->path`; `path` stays null when no entry is on
`interfaceID`. -/
def find_device_path_loop (device_info : List hid_device_info) (interfaceID : Int) :
    Option String :=
  match device_info with
  | [] => none
  | info :: next =>
    if info.interface_number == interfaceID then info.path
    else find_device_path_loop next interfaceID

/-- The function `find_device_path`, with the library calls it makes.  The
result `ret` is set only when `path` is not null after the loop.  The deleter
`hid_free_enumeration` of `EnumerationPtr` runs only for a non-null
enumeration. -/
def find_device_path (hid : Hid) (vendorID productID : Nat) (interfaceID : Int) :
    Option String × List HidCall :=
  let enumerate_result := hid.hid_enumerate vendorID productID
  if enumerate_result.isEmpty then
    (none, [HidCall.hid_enumerate vendorID productID])
  else
    let path := find_device_path_loop enumerate_result interfaceID
    let ret : Option String :=
      match path with
      | some chars => some chars
      | none => none
    (ret, [HidCall.hid_enumerate vendorID productID, HidCall.hid_free_enumeration])

/-- The function `get_brightness`, with the library call it makes. -/
def get_brightness (hid : Hid) : Option Nat × List HidCall :=
  let buffer : List Nat := [0x1, 0, 0, 0, 0, 0, 0]
  let ret := hid.hid_get_feature_report buffer
  if ret.1 == -1 then
    (none, [HidCall.hid_get_feature_report buffer])
  else
    (some (get_brightness_value ret.2), [HidCall.hid_get_feature_report buffer])

/-- The function `set_brightness`, with the library call it makes; the result
is none when the `assert` on `val` fails (the program aborts there). -/
def set_brightness (hid : Hid) (val : Nat) : Option (Bool × List HidCall) :=
  if val ≥ kAppleStudioDisplay.minBrightness ∧ val ≤ kAppleStudioDisplay.maxBrightness then
    let buffer := set_brightness_buffer val
    let ret := hid.hid_send_feature_report buffer
    some (decide (ret > -1), [HidCall.hid_send_feature_report buffer])
  else
    none

/-! ## The controller -/

/-- The member `std::string_view::starts_with`, on the characters of the two strings. -/
def starts_with (arg pre : String) : Bool :=
  pre.toList.isPrefixOf arg.toList

/-- One run of the program: the library calls in order, the text written to
standard output, and the exit status (none when an `assert` aborted the run). -/
structure Run where
  calls : List HidCall
  out : String
  status : Option Nat
deriving Repr, DecidableEq

/-- The function `main`; `argv` holds the `argc` arguments.  The destructors
of `device` (`hid_close`, for a non-null handle only) and of `init`
(`hid_exit`) run on every return, and not when a failed `assert` aborts the
run.  The result of `set_brightness` is discarded. -/
def main (hid : Hid) (argv : List String) : Run :=
  let found := find_device_path hid kAppleStudioDisplay.vendorID kAppleStudioDisplay.productID 7
  let calls₁ := [HidCall.hid_init] ++ found.2
  match found.1 with
  | none =>
    { calls := calls₁ ++ [HidCall.hid_exit],
      out := "Could not find matching device/interface.\n", status := some EXIT_FAILURE }
  | some path =>
    let calls₂ := calls₁ ++ [HidCall.hid_open_path path]
    if !hid.hid_open_path path then
      { calls := calls₂ ++ [HidCall.hid_exit],
        out := "Could not open device.\n", status := some EXIT_FAILURE }
    else
      let read := get_brightness hid
      let calls₃ := calls₂ ++ read.2
      match read.1 with
      | none =>
        { calls := calls₃ ++ [HidCall.hid_close, HidCall.hid_exit],
          out := "Could not read current brightness.\n", status := some EXIT_FAILURE }
      | some brightness =>
        if argv.length < 2 then
          { calls := calls₃ ++ [HidCall.hid_close, HidCall.hid_exit],
            out := "current brightness: " ++ toString brightness ++ "\n",
            status := some EXIT_SUCCESS }
        else
          let arg := argv.getD 1 ""
          if starts_with arg "--inc" then
            match next_brightness brightness with
            | some nextBrightnessStep =>
              match set_brightness hid nextBrightnessStep with
              | none => { calls := calls₃, out := "", status := none }
              | some written =>
                { calls := calls₃ ++ written.2 ++ [HidCall.hid_close, HidCall.hid_exit],
                  out := "", status := some EXIT_SUCCESS }
            | none =>
              { calls := calls₃ ++ [HidCall.hid_close, HidCall.hid_exit],
                out := "", status := some EXIT_SUCCESS }
          else if starts_with arg "--dec" then
            match prev_brightness brightness with
            | some prevBrightnessStep =>
              match set_brightness hid prevBrightnessStep with
              | none => { calls := calls₃, out := "", status := none }
              | some written =>
                { calls := calls₃ ++ written.2 ++ [HidCall.hid_close, HidCall.hid_exit],
                  out := "", status := some EXIT_SUCCESS }
            | none =>
              { calls := calls₃ ++ [HidCall.hid_close, HidCall.hid_exit],
                out := "", status := some EXIT_SUCCESS }
          else
            { calls := calls₃ ++ [HidCall.hid_close, HidCall.hid_exit],
              out := "Usage: " ++ argv.getD 0 "" ++ "[--increase|--decrease]\n",
              status := some EXIT_FAILURE }

/-- A host with the display attached: interface 7 is the second entry of the
enumeration, the device opens, reports brightness 8733 (bytes `0x1D`, `0x22`)
and accepts writes. -/
def studioHost : Hid where
  hid_enumerate := fun _ _ => [⟨some "/dev/hidraw3", 1⟩, ⟨some "/dev/hidraw4", 7⟩]
  hid_open_path := fun path => path == "/dev/hidraw4"
  hid_get_feature_report := fun _ => (7, [0x01, 0x1D, 0x22, 0, 0, 0, 0])
  hid_send_feature_report := fun _ => 7

/-- The host `studioHost` with another answer to the feature-report read. -/
def studioHostReporting (ret : Int) (buffer : List Nat) : Hid :=
  { studioHost with hid_get_feature_report := fun _ => (ret, buffer) }

/-- The host `studioHost` with every feature-report write failing. -/
def studioHostWriteFailing : Hid :=
  { studioHost with hid_send_feature_report := fun _ => -1 }

/-- A host on which the enumeration is empty (`hid_enumerate` returns null). -/
def noDeviceHost : Hid :=
  { studioHost with hid_enumerate := fun _ _ => [] }

/-- A host whose enumeration has no entry with interface number 7. -/
def otherInterfaceHost : Hid :=
  { studioHost with
    hid_enumerate := fun _ _ => [⟨some "/dev/hidraw3", 1⟩, ⟨some "/dev/hidraw5", 12⟩] }

/-- A host whose enumeration has two entries with interface number 7, the
first of them with a null `path`. -/
def nullPathHost : Hid :=
  { studioHost with
    hid_enumerate := fun _ _ => [⟨none, 7⟩, ⟨some "/dev/hidraw4", 7⟩] }

/-- Whether a library call is a set-feature write. -/
def HidCall.is_send_feature_report : HidCall → Bool
  | HidCall.hid_send_feature_report _ => true
  | _ => false

/-- Discovery, open and the brightness read all succeed on the host: the
three conditions under which `main` reaches its dispatch on `argv`. -/
def ReadsBrightness (hid : Hid) (path : String) (brightness : Nat) : Prop :=
  (find_device_path hid kAppleStudioDisplay.vendorID kAppleStudioDisplay.productID 7).1
      = some path ∧
  hid.hid_open_path path = true ∧
  (get_brightness hid).1 = some brightness

/-! ## The step table -/

theorem steps_inU16 : InU16 steps := by
  intro x hx
  simp only [steps, List.mem_cons, List.mem_singleton, List.not_mem_nil, or_false] at hx
  omega

theorem steps_nondecreasing : steps.Pairwise (· ≤ ·) := by
  unfold steps; decide

theorem steps_reverse_nonincreasing : steps.reverse.Pairwise (· ≥ ·) := by
  unfold steps; decide

theorem steps_reverse_inU16 : InU16 steps.reverse := by
  intro x hx
  exact steps_inU16 x (List.mem_reverse.mp hx)

theorem toNat_u16 (x : Int) (h : 0 ≤ x ∧ x < 65536) :
    (((x % 65536).toNat : Nat) : Int) = x := by
  omega

/-! ## The scan `next_value` -/

theorem next_value_cons_pos (doneFn : Int → Bool) (a : Int) (l : List Int)
    (h : doneFn a = true) :
    next_value (a :: l) doneFn = some (a % 65536).toNat := by
  simp [next_value, h]

theorem next_value_cons_neg (doneFn : Int → Bool) (a : Int) (l : List Int)
    (h : doneFn a = false) :
    next_value (a :: l) doneFn = next_value l doneFn := by
  simp [next_value, h]

/-- The scan returns none exactly when `doneFn` rejects every element. -/
theorem next_value_eq_none (doneFn : Int → Bool) (l : List Int) :
    next_value l doneFn = none ↔ ∀ t ∈ l, doneFn t = false := by
  induction l with
  | nil => simp [next_value]
  | cons a l ih =>
    cases h : doneFn a
    · rw [next_value_cons_neg _ a l h, ih]; simp [h]
    · rw [next_value_cons_pos _ a l h]; simp [h]

/-- What the scan returns is an element of the range that `doneFn` accepts, and
it is `R`-related to every element that `doneFn` accepts, when the range is
pairwise `R`-related and `R` is reflexive. -/
theorem next_value_eq_some (doneFn : Int → Bool) (R : Int → Int → Prop) (hR : ∀ x, R x x)
    (l : List Int) (hs : l.Pairwise R) (hu : InU16 l) (r : Nat)
    (h : next_value l doneFn = some r) :
    (r : Int) ∈ l ∧ doneFn r = true ∧ ∀ t ∈ l, doneFn t = true → R r t := by
  induction l with
  | nil => simp [next_value] at h
  | cons a l ih =>
    have ha := hu a (List.mem_cons_self a l)
    have hu' : InU16 l := fun x hx => hu x (List.mem_cons_of_mem a hx)
    rw [List.pairwise_cons] at hs
    cases hda : doneFn a
    · rw [next_value_cons_neg _ a l hda] at h
      obtain ⟨h1, h2, h3⟩ := ih hs.2 hu' h
      refine ⟨List.mem_cons_of_mem a h1, h2, ?_⟩
      intro t ht hdt
      rcases List.mem_cons.mp ht with rfl | ht
      · rw [hda] at hdt; cases hdt
      · exact h3 t ht hdt
    · rw [next_value_cons_pos _ a l hda] at h
      have hr : (r : Int) = a := by
        cases h
        exact toNat_u16 a ha
      rw [hr]
      refine ⟨List.mem_cons_self a l, hda, ?_⟩
      intro t ht _
      rcases List.mem_cons.mp ht with rfl | ht
      · exact hR _
      · exact hs.1 t ht

/-! ## `next_brightness` and `prev_brightness` as extremal elements -/

theorem next_brightness_some_iff (v r : Nat) :
    next_brightness v = some r ↔
      ((r : Int) ∈ steps ∧ (v : Int) < r ∧ ∀ t ∈ steps, (v : Int) < t → (r : Int) ≤ t) := by
  unfold next_brightness
  constructor
  · intro h
    have key := next_value_eq_some _ (· ≤ ·) (fun x => le_refl x) steps
      steps_nondecreasing steps_inU16 r h
    refine ⟨key.1, by simpa using key.2.1, ?_⟩
    intro t ht hvt
    exact key.2.2 t ht (by simpa using hvt)
  · rintro ⟨hr, hvr, hmin⟩
    cases hn : next_value steps (fun step => decide (step > (v : Int))) with
    | none =>
      have := (next_value_eq_none _ steps).mp hn _ hr
      simp at this
      omega
    | some r' =>
      have key := next_value_eq_some _ (· ≤ ·) (fun x => le_refl x) steps
        steps_nondecreasing steps_inU16 r' hn
      have h1 : (r : Int) ≤ r' := hmin _ key.1 (by simpa using key.2.1)
      have h2 : (r' : Int) ≤ r := key.2.2 _ hr (by simpa using hvr)
      have hrr : r' = r := by omega
      rw [hrr]

theorem prev_brightness_some_iff (v r : Nat) :
    prev_brightness v = some r ↔
      ((r : Int) ∈ steps ∧ (r : Int) < v ∧ ∀ t ∈ steps, t < (v : Int) → t ≤ (r : Int)) := by
  unfold prev_brightness
  constructor
  · intro h
    have key := next_value_eq_some _ (· ≥ ·) (fun x => le_refl x) steps.reverse
      steps_reverse_nonincreasing steps_reverse_inU16 r h
    refine ⟨List.mem_reverse.mp key.1, by simpa using key.2.1, ?_⟩
    intro t ht hvt
    exact key.2.2 t (List.mem_reverse.mpr ht) (by simpa using hvt)
  · rintro ⟨hr, hvr, hmax⟩
    cases hn : next_value steps.reverse (fun step => decide (step < (v : Int))) with
    | none =>
      have := (next_value_eq_none _ steps.reverse).mp hn _ (List.mem_reverse.mpr hr)
      simp at this
      omega
    | some r' =>
      have key := next_value_eq_some _ (· ≥ ·) (fun x => le_refl x) steps.reverse
        steps_reverse_nonincreasing steps_reverse_inU16 r' hn
      have h1 : (r' : Int) ≤ r := hmax _ (List.mem_reverse.mp key.1) (by simpa using key.2.1)
      have h2 : (r : Int) ≤ r' := key.2.2 _ (List.mem_reverse.mpr hr) (by simpa using hvr)
      have hrr : r' = r := by omega
      rw [hrr]

theorem next_brightness_none_iff (v : Nat) :
    next_brightness v = none ↔ ∀ t ∈ steps, ¬ (v : Int) < t := by
  unfold next_brightness
  rw [next_value_eq_none]
  simp

theorem prev_brightness_none_iff (v : Nat) :
    prev_brightness v = none ↔ ∀ t ∈ steps, ¬ t < (v : Int) := by
  unfold prev_brightness
  rw [next_value_eq_none]
  simp

/-- C1: for every 16-bit `v`, `next_brightness v` is the smallest entry of the
step table 400, 1424, ..., 60000 that is strictly greater than `v`, and it is
none exactly when no entry is strictly greater than `v`; in particular
`next_brightness 60000` is none. -/
theorem next_brightness_smallest_greater (v : Nat) (_hv : v < 65536) :
    (∀ r : Nat, next_brightness v = some r ↔
      ((r : Int) ∈ steps ∧ (v : Int) < r ∧ ∀ t ∈ steps, (v : Int) < t → (r : Int) ≤ t)) ∧
    (next_brightness v = none ↔ ∀ t ∈ steps, ¬ (v : Int) < t) ∧
    next_brightness 60000 = none ∧
    steps = [400, 1424, 2395, 3566, 4985, 6693, 8733, 11152, 14000,
             17331, 21019, 25689, 30854, 36778, 43547, 51254, 60000] :=
  ⟨fun r => next_brightness_some_iff v r, next_brightness_none_iff v, by decide, rfl⟩

theorem next_brightness_smallest_greater_witness :
    500 < 65536 ∧
    (∀ r : Nat, next_brightness 500 = some r ↔
      ((r : Int) ∈ steps ∧ ((500 : Nat) : Int) < r ∧
        ∀ t ∈ steps, ((500 : Nat) : Int) < t → (r : Int) ≤ t)) ∧
    (next_brightness 500 = none ↔ ∀ t ∈ steps, ¬ ((500 : Nat) : Int) < t) ∧
    next_brightness 60000 = none ∧
    steps = [400, 1424, 2395, 3566, 4985, 6693, 8733, 11152, 14000,
             17331, 21019, 25689, 30854, 36778, 43547, 51254, 60000] :=
  ⟨by decide, next_brightness_smallest_greater 500 (by decide)⟩

/-- C2: for every 16-bit `v`, `prev_brightness v` is the largest entry of the
step table that is strictly smaller than `v`, and it is none exactly when no
entry is strictly smaller than `v`; in particular `prev_brightness 400` is
none. -/
theorem prev_brightness_largest_smaller (v : Nat) (_hv : v < 65536) :
    (∀ r : Nat, prev_brightness v = some r ↔
      ((r : Int) ∈ steps ∧ (r : Int) < v ∧ ∀ t ∈ steps, t < (v : Int) → t ≤ (r : Int))) ∧
    (prev_brightness v = none ↔ ∀ t ∈ steps, ¬ t < (v : Int)) ∧
    prev_brightness 400 = none :=
  ⟨fun r => prev_brightness_some_iff v r, prev_brightness_none_iff v, by decide⟩

theorem prev_brightness_largest_smaller_witness :
    500 < 65536 ∧
    (∀ r : Nat, prev_brightness 500 = some r ↔
      ((r : Int) ∈ steps ∧ (r : Int) < ((500 : Nat) : Int) ∧
        ∀ t ∈ steps, t < ((500 : Nat) : Int) → t ≤ (r : Int))) ∧
    (prev_brightness 500 = none ↔ ∀ t ∈ steps, ¬ t < ((500 : Nat) : Int)) ∧
    prev_brightness 400 = none :=
  ⟨by decide, prev_brightness_largest_smaller 500 (by decide)⟩

/-! ## Stepping from and between table entries -/

/-- Consecutive entries of `steps` have no entry strictly between them. -/
theorem steps_consecutive (i : Fin 16) :
    ∀ t ∈ steps, t ≤ steps.getD i.val 0 ∨ steps.getD (i.val + 1) 0 ≤ t := by
  revert i
  unfold steps
  decide

theorem steps_getD_mem (i : Fin 17) : steps.getD i.val 0 ∈ steps := by
  revert i
  unfold steps
  decide

theorem steps_getD_toNat (i : Fin 17) :
    (((steps.getD i.val 0).toNat : Nat) : Int) = steps.getD i.val 0 := by
  have h := steps_inU16 _ (steps_getD_mem i)
  omega

/-- C3: for every index `i` below 16, `next_brightness` of the `i`-th table
entry is the entry at index `i + 1`; the entry at index 16 is 60000 and
`next_brightness 60000` is none. -/
theorem next_brightness_of_step :
    (∀ i : Fin 16, next_brightness (steps.getD i.val 0).toNat
        = some (steps.getD (i.val + 1) 0).toNat) ∧
    steps.length = 17 ∧ steps.getD 16 0 = 60000 ∧ next_brightness 60000 = none := by
  refine ⟨?_, rfl, rfl, by decide⟩
  intro i
  fin_cases i <;> rfl

/-- C4: for every index `i` from 1 to 16, `prev_brightness` of the `i`-th table
entry is the entry at index `i - 1` (so `prev_brightness 11152` is 8733); the
entry at index 0 is 400 and `prev_brightness 400` is none. -/
theorem prev_brightness_of_step :
    (∀ i : Fin 16, prev_brightness (steps.getD (i.val + 1) 0).toNat
        = some (steps.getD i.val 0).toNat) ∧
    prev_brightness 11152 = some 8733 ∧
    steps.length = 17 ∧ steps.getD 0 0 = 400 ∧ prev_brightness 400 = none := by
  refine ⟨?_, by decide, rfl, rfl, by decide⟩
  intro i
  fin_cases i <;> rfl

/-- C5: for consecutive table entries `a` (index `i`) and `b` (index `i + 1`)
and every 16-bit `v` with `a < v < b`, `next_brightness v` is `b` and
`prev_brightness v` is `a`. -/
theorem brightness_between_steps (i : Fin 16) (v : Nat) (_hv : v < 65536)
    (hav : steps.getD i.val 0 < (v : Int)) (hvb : (v : Int) < steps.getD (i.val + 1) 0) :
    next_brightness v = some (steps.getD (i.val + 1) 0).toNat ∧
    prev_brightness v = some (steps.getD i.val 0).toNat := by
  have hadj := steps_consecutive i
  have ha := steps_getD_mem ⟨i.val, by omega⟩
  have hb := steps_getD_mem ⟨i.val + 1, by omega⟩
  have ha' := steps_getD_toNat ⟨i.val, by omega⟩
  have hb' := steps_getD_toNat ⟨i.val + 1, by omega⟩
  simp only at ha hb ha' hb'
  rw [next_brightness_some_iff, prev_brightness_some_iff, ha', hb']
  refine ⟨⟨hb, hvb, ?_⟩, ⟨ha, hav, ?_⟩⟩
  · intro t ht hvt
    rcases hadj t ht with h | h
    · omega
    · exact h
  · intro t ht hvt
    rcases hadj t ht with h | h
    · exact h
    · omega

theorem brightness_between_steps_witness :
    (500 < 65536 ∧ steps.getD (0 : Fin 16).val 0 < ((500 : Nat) : Int) ∧
      ((500 : Nat) : Int) < steps.getD ((0 : Fin 16).val + 1) 0) ∧
    next_brightness 500 = some 1424 ∧ prev_brightness 500 = some 400 :=
  ⟨⟨by decide, by decide, by decide⟩,
   brightness_between_steps 0 500 (by decide) (by decide) (by decide)⟩

/-! ## Feature-report codec -/

theorem and_0x00ff (x : Nat) : x &&& 0x00ff = x % 256 :=
  Nat.and_pow_two_sub_one_eq_mod x 8

theorem shiftRight_8 (x : Nat) : x >>> 8 = x / 256 :=
  Nat.shiftRight_eq_div_pow x 8

theorem shiftLeft_8 (x : Nat) : x <<< 8 = x * 256 :=
  Nat.shiftLeft_eq x 8

theorem add_shiftLeft_8_eq_or (lo hi : Nat) (h : lo < 256) :
    lo + (hi <<< 8) = lo ||| (hi <<< 8) := by
  have key := Nat.mul_add_lt_is_or (i := 8) (b := lo) h hi
  rw [shiftLeft_8, Nat.or_comm, Nat.add_comm, Nat.mul_comm]
  exact key

theorem set_brightness_buffer_eq (x : Nat) (hx : x < 65536) :
    set_brightness_buffer x = [0x01, x % 256, x / 256, 0, 0, 0, 0] := by
  unfold set_brightness_buffer
  rw [and_0x00ff, and_0x00ff, shiftRight_8]
  have h1 : x % 256 % 256 = x % 256 := by omega
  have h2 : x / 256 % 256 % 256 = x / 256 := by omega
  rw [h1, h2]

theorem get_brightness_value_eq (buffer : List Nat) :
    get_brightness_value buffer
      = (buffer.getD 1 0 % 256 % 65536 + buffer.getD 2 0 % 256 % 65536 * 256) % 65536 := by
  unfold get_brightness_value
  rw [shiftLeft_8]

/-- C6: for every 16-bit `x`, the buffer that `set_brightness` builds for `x`
is a 7-byte buffer, and decoding it as `get_brightness` does gives `x` back:
the value of the return expression on it is `x`, and `get_brightness` returns
`x` whenever a successful feature-report read leaves that buffer. -/
theorem get_brightness_value_set_brightness_buffer (x : Nat) (hx : x < 65536) :
    IsReportBuffer (set_brightness_buffer x) ∧
    get_brightness_value (set_brightness_buffer x) = x ∧
    (∀ (hid : Hid) (ret : Int),
      hid.hid_get_feature_report [0x1, 0, 0, 0, 0, 0, 0] = (ret, set_brightness_buffer x) →
      ret ≠ -1 → (get_brightness hid).1 = some x) := by
  have hbuf := set_brightness_buffer_eq x hx
  have hval : get_brightness_value (set_brightness_buffer x) = x := by
    rw [hbuf, get_brightness_value_eq]
    simp only [List.getD_cons_succ, List.getD_cons_zero]
    omega
  refine ⟨?_, hval, ?_⟩
  · rw [hbuf]
    refine ⟨rfl, ?_⟩
    intro b hb
    simp only [List.mem_cons, List.mem_singleton, List.not_mem_nil, or_false] at hb
    omega
  · intro hid ret hret hne
    unfold get_brightness
    simp only [hret]
    rw [if_neg (by simpa using hne)]
    simp only [hval]

theorem get_brightness_value_set_brightness_buffer_witness :
    11152 < 65536 ∧
    IsReportBuffer (set_brightness_buffer 11152) ∧
    get_brightness_value (set_brightness_buffer 11152) = 11152 :=
  ⟨by decide,
   (get_brightness_value_set_brightness_buffer 11152 (by decide)).1,
   (get_brightness_value_set_brightness_buffer 11152 (by decide)).2.1⟩

/-- C7: for every 16-bit `x`, the buffer that `set_brightness` builds has 7
bytes and is `[0x01, x mod 256, x div 256, 0, 0, 0, 0]`; for `x` within the
asserted range this is the buffer `set_brightness` sends. -/
theorem set_brightness_buffer_layout (x : Nat) (hx : x < 65536) :
    set_brightness_buffer x = [0x01, x % 256, x / 256, 0, 0, 0, 0] ∧
    (set_brightness_buffer x).length = 7 ∧
    IsReportBuffer (set_brightness_buffer x) ∧
    ∀ hid : Hid, 400 ≤ x → x ≤ 60000 →
      set_brightness hid x =
        some (decide (hid.hid_send_feature_report [0x01, x % 256, x / 256, 0, 0, 0, 0] > -1),
              [HidCall.hid_send_feature_report [0x01, x % 256, x / 256, 0, 0, 0, 0]]) := by
  have h := set_brightness_buffer_eq x hx
  refine ⟨h, by rw [h]; rfl, ?_, ?_⟩
  · rw [h]
    refine ⟨rfl, ?_⟩
    intro b hb
    simp only [List.mem_cons, List.mem_singleton, List.not_mem_nil, or_false] at hb
    omega
  · intro hid h1 h2
    unfold set_brightness
    rw [if_pos (by simp only [kAppleStudioDisplay]; omega)]
    simp only [h]

theorem set_brightness_buffer_layout_witness :
    8733 < 65536 ∧
    set_brightness_buffer 8733 = [0x01, 8733 % 256, 8733 / 256, 0, 0, 0, 0] ∧
    (set_brightness_buffer 8733).length = 7 ∧
    IsReportBuffer (set_brightness_buffer 8733) ∧
    ∀ hid : Hid, 400 ≤ 8733 → 8733 ≤ 60000 →
      set_brightness hid 8733 =
        some (decide (hid.hid_send_feature_report
                [0x01, 8733 % 256, 8733 / 256, 0, 0, 0, 0] > -1),
              [HidCall.hid_send_feature_report [0x01, 8733 % 256, 8733 / 256, 0, 0, 0, 0]]) :=
  ⟨by decide, set_brightness_buffer_layout 8733 (by decide)⟩

/-- C8: for every 7-byte buffer left by a successful `hid_get_feature_report`,
the value `get_brightness` returns is `buffer[1] | (buffer[2] << 8)`; the sum
the code computes equals that bitwise OR and is at most 65535; and the value
is the same for any two buffers that agree on bytes 1 and 2. -/
theorem get_brightness_value_spec (buffer : List Nat) (hb : IsReportBuffer buffer) :
    get_brightness_value buffer = (buffer.getD 1 0 ||| (buffer.getD 2 0 <<< 8)) ∧
    buffer.getD 1 0 + (buffer.getD 2 0 <<< 8) = (buffer.getD 1 0 ||| (buffer.getD 2 0 <<< 8)) ∧
    get_brightness_value buffer ≤ 65535 ∧
    (∀ other : List Nat, IsReportBuffer other →
      other.getD 1 0 = buffer.getD 1 0 → other.getD 2 0 = buffer.getD 2 0 →
      get_brightness_value other = get_brightness_value buffer) ∧
    (∀ hid : Hid, ∀ ret : Int,
      hid.hid_get_feature_report [0x1, 0, 0, 0, 0, 0, 0] = (ret, buffer) → ret ≠ -1 →
      (get_brightness hid).1 = some (buffer.getD 1 0 ||| (buffer.getD 2 0 <<< 8))) := by
  obtain ⟨hlen, hbytes⟩ := hb
  have h1 : buffer.getD 1 0 < 256 := by
    rw [List.getD_eq_getElem _ _ (by omega)]
    exact hbytes _ (List.getElem_mem _)
  have h2 : buffer.getD 2 0 < 256 := by
    rw [List.getD_eq_getElem _ _ (by omega)]
    exact hbytes _ (List.getElem_mem _)
  have hor := add_shiftLeft_8_eq_or _ (buffer.getD 2 0) h1
  have hval : get_brightness_value buffer = buffer.getD 1 0 + (buffer.getD 2 0 <<< 8) := by
    rw [get_brightness_value_eq, shiftLeft_8]
    omega
  refine ⟨by rw [hval, hor], hor, ?_, ?_, ?_⟩
  · rw [get_brightness_value_eq]
    omega
  · intro other _ e1 e2
    rw [get_brightness_value_eq, get_brightness_value_eq, e1, e2]
  · intro hid ret hret hne
    unfold get_brightness
    simp only [hret]
    rw [if_neg (by simpa using hne)]
    simp only [hval, hor]

theorem get_brightness_value_spec_witness :
    IsReportBuffer [0x01, 0x1D, 0x22, 0, 0, 0, 0] ∧
    get_brightness_value [0x01, 0x1D, 0x22, 0, 0, 0, 0] = 8733 :=
  ⟨by decide, (get_brightness_value_spec [0x01, 0x1D, 0x22, 0, 0, 0, 0] (by decide)).1⟩

/-! ## The controller -/

theorem find_device_path_calls (hid : Hid) (vendorID productID : Nat) (interfaceID : Int)
    (path : String) (h : (find_device_path hid vendorID productID interfaceID).1 = some path) :
    (find_device_path hid vendorID productID interfaceID).2 =
      [HidCall.hid_enumerate vendorID productID, HidCall.hid_free_enumeration] := by
  unfold find_device_path at h ⊢
  by_cases he : (hid.hid_enumerate vendorID productID).isEmpty = true
  · simp [he] at h
  · simp [he]

theorem find_device_path_no_send (hid : Hid) (vendorID productID : Nat) (interfaceID : Int)
    (buffer : List Nat) :
    HidCall.hid_send_feature_report buffer ∉
      (find_device_path hid vendorID productID interfaceID).2 := by
  unfold find_device_path
  dsimp only
  split <;> simp

theorem get_brightness_calls (hid : Hid) :
    (get_brightness hid).2 = [HidCall.hid_get_feature_report [0x1, 0, 0, 0, 0, 0, 0]] := by
  unfold get_brightness
  dsimp only
  split <;> rfl

theorem set_brightness_in_range (hid : Hid) (val : Nat) (h : 400 ≤ val ∧ val ≤ 60000) :
    set_brightness hid val =
      some (decide (hid.hid_send_feature_report (set_brightness_buffer val) > -1),
            [HidCall.hid_send_feature_report (set_brightness_buffer val)]) := by
  unfold set_brightness
  rw [if_pos (by simp only [kAppleStudioDisplay]; omega)]

/-- The `assert` of `set_brightness` fails exactly outside the range of the display. -/
theorem set_brightness_eq_none (hid : Hid) (val : Nat) :
    set_brightness hid val = none ↔
      ¬ (kAppleStudioDisplay.minBrightness ≤ val ∧ val ≤ kAppleStudioDisplay.maxBrightness) := by
  unfold set_brightness
  split <;> simp_all

theorem steps_mem_range (r : Nat) (h : (r : Int) ∈ steps) : 400 ≤ r ∧ r ≤ 60000 := by
  simp only [steps, List.mem_cons, List.mem_singleton, List.not_mem_nil, or_false] at h
  omega

theorem next_brightness_range (v r : Nat) (h : next_brightness v = some r) :
    400 ≤ r ∧ r ≤ 60000 :=
  steps_mem_range r ((next_brightness_some_iff v r).mp h).1

theorem prev_brightness_range (v r : Nat) (h : prev_brightness v = some r) :
    400 ≤ r ∧ r ≤ 60000 :=
  steps_mem_range r ((prev_brightness_some_iff v r).mp h).1

/-- No run of `main` ends in a failed assertion, and every feature report it
sends is the encoding of a value within the asserted range. -/
theorem main_sends_in_range (hid : Hid) (argv : List String) :
    (main hid argv).status ≠ none ∧
    ∀ buffer, HidCall.hid_send_feature_report buffer ∈ (main hid argv).calls →
      ∃ r, (400 ≤ r ∧ r ≤ 60000) ∧ buffer = set_brightness_buffer r := by
  have hfind := find_device_path_no_send hid kAppleStudioDisplay.vendorID
    kAppleStudioDisplay.productID 7
  unfold main
  dsimp only
  split
  · exact ⟨by simp, fun buffer hb => by simp [hfind buffer] at hb⟩
  · split
    · exact ⟨by simp, fun buffer hb => by simp [hfind buffer] at hb⟩
    · rw [get_brightness_calls]
      split
      · exact ⟨by simp, fun buffer hb => by simp [hfind buffer] at hb⟩
      · rename_i brightness _
        split
        · exact ⟨by simp, fun buffer hb => by simp [hfind buffer] at hb⟩
        · split
          · split
            · rename_i r hr
              have hrange := next_brightness_range brightness r hr
              rw [set_brightness_in_range hid r hrange]
              refine ⟨by simp, fun buffer hb => ?_⟩
              simp [hfind buffer] at hb
              exact ⟨r, hrange, hb⟩
            · exact ⟨by simp, fun buffer hb => by simp [hfind buffer] at hb⟩
          · split
            · split
              · rename_i r hr
                have hrange := prev_brightness_range brightness r hr
                rw [set_brightness_in_range hid r hrange]
                refine ⟨by simp, fun buffer hb => ?_⟩
                simp [hfind buffer] at hb
                exact ⟨r, hrange, hb⟩
              · exact ⟨by simp, fun buffer hb => by simp [hfind buffer] at hb⟩
            · exact ⟨by simp, fun buffer hb => by simp [hfind buffer] at hb⟩

/-- C9, as the code behaves: when discovery and open succeed, the brightness
read is 8733 and the command starts with `--inc`, the target is 11152 and the
one write of the run carries `[0x01, 0x90, 0x2B, 0, 0, 0, 0]`
(11152 is `0x2B90`). -/
theorem main_increase_from_8733 (hid : Hid) (argv : List String) (path : String)
    (hfound : (find_device_path hid kAppleStudioDisplay.vendorID
                kAppleStudioDisplay.productID 7).1 = some path)
    (hopen : hid.hid_open_path path = true)
    (hread : (get_brightness hid).1 = some 8733)
    (hargc : 2 ≤ argv.length)
    (hinc : starts_with (argv.getD 1 "") "--inc" = true) :
    next_brightness 8733 = some 11152 ∧
    11152 = 0x2B90 ∧
    set_brightness_buffer 11152 = [0x01, 0x90, 0x2B, 0x00, 0x00, 0x00, 0x00] ∧
    (main hid argv).calls =
      [HidCall.hid_init,
       HidCall.hid_enumerate 0x05ac 0x1114,
       HidCall.hid_free_enumeration,
       HidCall.hid_open_path path,
       HidCall.hid_get_feature_report [0x01, 0, 0, 0, 0, 0, 0],
       HidCall.hid_send_feature_report [0x01, 0x90, 0x2B, 0x00, 0x00, 0x00, 0x00],
       HidCall.hid_close,
       HidCall.hid_exit] := by
  have hnext : next_brightness 8733 = some 11152 := by decide
  have hbuf : set_brightness_buffer 11152 = [0x01, 0x90, 0x2B, 0x00, 0x00, 0x00, 0x00] := by
    decide
  refine ⟨hnext, by decide, hbuf, ?_⟩
  have hcalls := find_device_path_calls hid _ _ _ path hfound
  have hset := set_brightness_in_range hid 11152 (by omega)
  have hlen : ¬ argv.length < 2 := by omega
  unfold main
  simp only [hfound, hcalls, hopen, hread, get_brightness_calls, hlen, hinc, hnext, hset, hbuf]
  simp [kAppleStudioDisplay]

theorem main_increase_from_8733_witness :
    ((find_device_path studioHost kAppleStudioDisplay.vendorID
        kAppleStudioDisplay.productID 7).1 = some "/dev/hidraw4" ∧
      studioHost.hid_open_path "/dev/hidraw4" = true ∧
      (get_brightness studioHost).1 = some 8733 ∧
      starts_with "--increase" "--inc" = true) ∧
    (main studioHost ["hidbrightness", "--increase"]).calls =
      [HidCall.hid_init,
       HidCall.hid_enumerate 0x05ac 0x1114,
       HidCall.hid_free_enumeration,
       HidCall.hid_open_path "/dev/hidraw4",
       HidCall.hid_get_feature_report [0x01, 0, 0, 0, 0, 0, 0],
       HidCall.hid_send_feature_report [0x01, 0x90, 0x2B, 0x00, 0x00, 0x00, 0x00],
       HidCall.hid_close,
       HidCall.hid_exit] :=
  ⟨⟨by decide, by decide, by decide, by decide⟩,
   (main_increase_from_8733 studioHost ["hidbrightness", "--increase"] "/dev/hidraw4"
      (by decide) (by decide) (by decide) (by decide) (by decide)).2.2.2⟩

/-- C9 as stated fails: on a host where discovery and open succeed and the
brightness read is 8733, the run of `--increase` computes the target 11152
and never sends `[0x01, 0xD0, 0x2B, 0, 0, 0, 0]`; that buffer decodes to
11216, which is `0x2BD0`, and the buffer sent is `[0x01, 0x90, 0x2B, 0, 0, 0, 0]`. -/
theorem increase_from_8733_sends_0x2B90 :
    (find_device_path studioHost kAppleStudioDisplay.vendorID
        kAppleStudioDisplay.productID 7).1 = some "/dev/hidraw4" ∧
    studioHost.hid_open_path "/dev/hidraw4" = true ∧
    (get_brightness studioHost).1 = some 8733 ∧
    starts_with "--increase" "--inc" = true ∧
    next_brightness 8733 = some 11152 ∧
    HidCall.hid_send_feature_report [0x01, 0xD0, 0x2B, 0x00, 0x00, 0x00, 0x00] ∉
      (main studioHost ["hidbrightness", "--increase"]).calls ∧
    HidCall.hid_send_feature_report [0x01, 0x90, 0x2B, 0x00, 0x00, 0x00, 0x00] ∈
      (main studioHost ["hidbrightness", "--increase"]).calls ∧
    set_brightness_buffer 11152 ≠ [0x01, 0xD0, 0x2B, 0x00, 0x00, 0x00, 0x00] ∧
    get_brightness_value [0x01, 0xD0, 0x2B, 0x00, 0x00, 0x00, 0x00] = 11216 ∧
    (0x2BD0 : Nat) = 11216 := by
  decide

/-- C10: every value that `next_brightness` or `prev_brightness` returns for a
16-bit brightness lies in the range `[minBrightness, maxBrightness]`, which is
`[400, 60000]`; the `assert` of `set_brightness` fails only outside that
range; and in no run of `main` does it fail: every run ends with an exit
status, and every feature report sent encodes a value of that range. -/
theorem main_set_brightness_assert_holds :
    (∀ v r : Nat, v < 65536 → (next_brightness v = some r ∨ prev_brightness v = some r) →
      kAppleStudioDisplay.minBrightness ≤ r ∧ r ≤ kAppleStudioDisplay.maxBrightness) ∧
    (kAppleStudioDisplay.minBrightness = 400 ∧ kAppleStudioDisplay.maxBrightness = 60000) ∧
    (∀ (hid : Hid) (val : Nat), set_brightness hid val = none ↔
      ¬ (kAppleStudioDisplay.minBrightness ≤ val ∧ val ≤ kAppleStudioDisplay.maxBrightness)) ∧
    (∀ (hid : Hid) (argv : List String),
      (main hid argv).status ≠ none ∧
      ∀ buffer, HidCall.hid_send_feature_report buffer ∈ (main hid argv).calls →
        ∃ r, (400 ≤ r ∧ r ≤ 60000) ∧ buffer = set_brightness_buffer r) := by
  refine ⟨?_, ⟨rfl, rfl⟩, set_brightness_eq_none, main_sends_in_range⟩
  intro v r _ h
  rcases h with h | h
  · exact next_brightness_range v r h
  · exact prev_brightness_range v r h

/-! ## Device discovery -/

/-- The loop copies the `path` of the first entry on `interfaceID`. -/
theorem find_device_path_loop_of_split (before : List hid_device_info)
    (info : hid_device_info) (after : List hid_device_info) (interfaceID : Int)
    (hbefore : ∀ other ∈ before, other.interface_number ≠ interfaceID)
    (hinfo : info.interface_number = interfaceID) :
    find_device_path_loop (before ++ info :: after) interfaceID = info.path := by
  induction before with
  | nil =>
    unfold find_device_path_loop
    simp [hinfo]
  | cons b before ih =>
    have hb : (b.interface_number == interfaceID) = false := by
      simpa using hbefore b (List.mem_cons_self b before)
    rw [List.cons_append]
    unfold find_device_path_loop
    simp only [hb, Bool.false_eq_true, if_false]
    exact ih (fun other ho => hbefore other (List.mem_cons_of_mem b ho))

/-- The loop leaves `path` null when no entry is on `interfaceID`. -/
theorem find_device_path_loop_of_no_match (l : List hid_device_info) (interfaceID : Int)
    (h : ∀ info ∈ l, info.interface_number ≠ interfaceID) :
    find_device_path_loop l interfaceID = none := by
  induction l with
  | nil => rfl
  | cons a l ih =>
    have ha : (a.interface_number == interfaceID) = false := by
      simpa using h a (List.mem_cons_self a l)
    unfold find_device_path_loop
    simp only [ha, Bool.false_eq_true, if_false]
    exact ih (fun info hi => h info (List.mem_cons_of_mem a hi))

/-- An enumeration has no entry on `interfaceID`, or a first one. -/
theorem first_on_interface (l : List hid_device_info) (interfaceID : Int) :
    (∀ info ∈ l, info.interface_number ≠ interfaceID) ∨
    ∃ (before : List hid_device_info) (info : hid_device_info) (after : List hid_device_info),
      l = before ++ info :: after ∧
      (∀ other ∈ before, other.interface_number ≠ interfaceID) ∧
      info.interface_number = interfaceID := by
  induction l with
  | nil => exact Or.inl (by simp)
  | cons a l ih =>
    by_cases ha : a.interface_number = interfaceID
    · exact Or.inr ⟨[], a, l, rfl, by simp, ha⟩
    · rcases ih with hno | ⟨before, info, after, hl, hbefore, hinfo⟩
      · left
        intro info hi
        rcases List.mem_cons.mp hi with rfl | hi
        · exact ha
        · exact hno info hi
      · right
        refine ⟨a :: before, info, after, by simp [hl], ?_, hinfo⟩
        intro other ho
        rcases List.mem_cons.mp ho with rfl | ho
        · exact ha
        · exact hbefore other ho

theorem find_device_path_loop_eq_find (l : List hid_device_info) (interfaceID : Int) :
    find_device_path_loop l interfaceID =
      (l.find? (fun info => info.interface_number == interfaceID)).bind
        (fun info => info.path) := by
  induction l with
  | nil => rfl
  | cons a l ih =>
    unfold find_device_path_loop
    rw [List.find?_cons]
    cases h : (a.interface_number == interfaceID)
    · simp [ih]
    · simp

theorem find_device_path_fst (hid : Hid) (vendorID productID : Nat) (interfaceID : Int) :
    (find_device_path hid vendorID productID interfaceID).1 =
      find_device_path_loop (hid.hid_enumerate vendorID productID) interfaceID := by
  unfold find_device_path
  dsimp only
  split
  · rename_i h
    rw [List.isEmpty_iff] at h
    rw [h]; rfl
  · cases find_device_path_loop (hid.hid_enumerate vendorID productID) interfaceID <;> rfl

/-- C11, as the code behaves: `find_device_path` looks at the first entry of
the enumeration, in the order reported, whose interface number equals
`interfaceID`, and returns its path when that path is not null; it returns no
path exactly when the enumeration is empty, no entry has that interface
number, or the first entry that has it carries a null path. -/
theorem find_device_path_first_match (hid : Hid) (vendorID productID : Nat) (interfaceID : Int) :
    (∀ path : String,
      (find_device_path hid vendorID productID interfaceID).1 = some path ↔
      ∃ (before : List hid_device_info) (info : hid_device_info) (after : List hid_device_info),
        hid.hid_enumerate vendorID productID = before ++ info :: after ∧
        (∀ other ∈ before, other.interface_number ≠ interfaceID) ∧
        info.interface_number = interfaceID ∧ info.path = some path) ∧
    ((find_device_path hid vendorID productID interfaceID).1 = none ↔
      (hid.hid_enumerate vendorID productID = [] ∨
       (∀ info ∈ hid.hid_enumerate vendorID productID, info.interface_number ≠ interfaceID) ∨
       ∃ (before : List hid_device_info) (info : hid_device_info)
          (after : List hid_device_info),
         hid.hid_enumerate vendorID productID = before ++ info :: after ∧
         (∀ other ∈ before, other.interface_number ≠ interfaceID) ∧
         info.interface_number = interfaceID ∧ info.path = none)) ∧
    (find_device_path hid vendorID productID interfaceID).1 =
      ((hid.hid_enumerate vendorID productID).find?
        (fun info => info.interface_number == interfaceID)).bind (fun info => info.path) := by
  rw [find_device_path_fst]
  refine ⟨?_, ?_, find_device_path_loop_eq_find _ _⟩
  · intro path
    constructor
    · intro h
      rcases first_on_interface (hid.hid_enumerate vendorID productID) interfaceID with
        hno | ⟨before, info, after, hl, hbefore, hinfo⟩
      · rw [find_device_path_loop_of_no_match _ _ hno] at h
        cases h
      · refine ⟨before, info, after, hl, hbefore, hinfo, ?_⟩
        rw [hl, find_device_path_loop_of_split before info after interfaceID hbefore hinfo] at h
        exact h
    · rintro ⟨before, info, after, hl, hbefore, hinfo, hpath⟩
      rw [hl, find_device_path_loop_of_split before info after interfaceID hbefore hinfo]
      exact hpath
  · constructor
    · intro h
      rcases first_on_interface (hid.hid_enumerate vendorID productID) interfaceID with
        hno | ⟨before, info, after, hl, hbefore, hinfo⟩
      · exact Or.inr (Or.inl hno)
      · refine Or.inr (Or.inr ⟨before, info, after, hl, hbefore, hinfo, ?_⟩)
        rw [hl, find_device_path_loop_of_split before info after interfaceID hbefore hinfo] at h
        exact h
    · rintro (h | h | ⟨before, info, after, hl, hbefore, hinfo, hpath⟩)
      · rw [h]; rfl
      · exact find_device_path_loop_of_no_match _ _ h
      · rw [hl, find_device_path_loop_of_split before info after interfaceID hbefore hinfo]
        exact hpath

/-- C11 as stated fails: on a host whose enumeration is not empty and whose
first entry with interface number 7 has a null path (a second entry on
interface 7 has a path), `find_device_path` returns no path, and `main`
reports that no device was found. -/
theorem find_device_path_null_path :
    nullPathHost.hid_enumerate 0x05ac 0x1114 =
      [⟨none, 7⟩, ⟨some "/dev/hidraw4", 7⟩] ∧
    (find_device_path nullPathHost 0x05ac 0x1114 7).1 = none ∧
    ¬ (nullPathHost.hid_enumerate 0x05ac 0x1114 = [] ∨
       ∀ info ∈ nullPathHost.hid_enumerate 0x05ac 0x1114, info.interface_number ≠ 7) ∧
    (main nullPathHost ["hidbrightness"]).out
      = "Could not find matching device/interface.\n" := by
  refine ⟨rfl, by decide, ?_, by decide⟩
  rintro (h | h)
  · exact absurd h (by decide)
  · exact h ⟨none, 7⟩ (by decide) rfl

theorem find_device_path_first_match_sample :
    (find_device_path studioHost 0x05ac 0x1114 7).1 = some "/dev/hidraw4" ∧
    (find_device_path noDeviceHost 0x05ac 0x1114 7).1 = none ∧
    (find_device_path otherInterfaceHost 0x05ac 0x1114 7).1 = none := by
  decide

/-! ## Invariants of the data model -/

/-- C16: the step table has 17 entries, distinct and strictly increasing, each
within 16 unsigned bits; its first entry is `minBrightness` (400), its last
is `maxBrightness` (60000), and `minBrightness < maxBrightness`. -/
theorem steps_invariant :
    steps.length = 17 ∧
    steps.Nodup ∧
    steps.Pairwise (· < ·) ∧
    (∀ s ∈ steps, 0 ≤ s ∧ s < 65536) ∧
    steps.head? = some (kAppleStudioDisplay.minBrightness : Int) ∧
    steps.getLast? = some (kAppleStudioDisplay.maxBrightness : Int) ∧
    kAppleStudioDisplay.minBrightness = 400 ∧
    kAppleStudioDisplay.maxBrightness = 60000 ∧
    kAppleStudioDisplay.minBrightness < kAppleStudioDisplay.maxBrightness := by
  refine ⟨rfl, ?_, ?_, steps_inU16, ?_, ?_, rfl, rfl, by decide⟩
  · unfold steps; decide
  · unfold steps; decide
  · rfl
  · rfl

/-! ## Up and down again -/

theorem next_prev_of_step (i : Fin 16) :
    (next_brightness (steps.getD i.val 0).toNat).bind prev_brightness
      = some (steps.getD i.val 0).toNat := by
  fin_cases i <;> rfl

theorem prev_next_of_step (i : Fin 16) :
    (prev_brightness (steps.getD (i.val + 1) 0).toNat).bind next_brightness
      = some (steps.getD (i.val + 1) 0).toNat := by
  fin_cases i <;> rfl

theorem steps_mem_cases (v : Nat) (h : (v : Int) ∈ steps) :
    ∃ i : Fin 17, v = (steps.getD i.val 0).toNat := by
  simp only [steps, List.mem_cons, List.mem_singleton, List.not_mem_nil, or_false] at h
  have hv : v = 400 ∨ v = 1424 ∨ v = 2395 ∨ v = 3566 ∨ v = 4985 ∨ v = 6693 ∨ v = 8733 ∨
      v = 11152 ∨ v = 14000 ∨ v = 17331 ∨ v = 21019 ∨ v = 25689 ∨ v = 30854 ∨ v = 36778 ∨
      v = 43547 ∨ v = 51254 ∨ v = 60000 := by omega
  rcases hv with h | h | h | h | h | h | h | h | h | h | h | h | h | h | h | h | h
  · exact ⟨0, h⟩
  · exact ⟨1, h⟩
  · exact ⟨2, h⟩
  · exact ⟨3, h⟩
  · exact ⟨4, h⟩
  · exact ⟨5, h⟩
  · exact ⟨6, h⟩
  · exact ⟨7, h⟩
  · exact ⟨8, h⟩
  · exact ⟨9, h⟩
  · exact ⟨10, h⟩
  · exact ⟨11, h⟩
  · exact ⟨12, h⟩
  · exact ⟨13, h⟩
  · exact ⟨14, h⟩
  · exact ⟨15, h⟩
  · exact ⟨16, h⟩

/-- C18: for every table value other than 60000, stepping up and then down
returns it; for every table value other than 400, stepping down and then up
returns it; from the non-tabulated 500, up and then down gives 400. -/
theorem step_up_down_round_trip :
    (∀ v : Nat, (v : Int) ∈ steps → v ≠ 60000 →
      (next_brightness v).bind prev_brightness = some v) ∧
    (∀ v : Nat, (v : Int) ∈ steps → v ≠ 400 →
      (prev_brightness v).bind next_brightness = some v) ∧
    ((500 : Int) ∉ steps ∧
      (next_brightness 500).bind prev_brightness = some 400 ∧
      (next_brightness 500).bind prev_brightness ≠ some 500) := by
  refine ⟨?_, ?_, ?_, by decide, by decide⟩
  · intro v hv hne
    obtain ⟨i, hi⟩ := steps_mem_cases v hv
    by_cases h16 : i.val = 16
    · exfalso
      apply hne
      rw [hi, h16]; rfl
    · have := next_prev_of_step ⟨i.val, by omega⟩
      rw [hi]; exact this
  · intro v hv hne
    obtain ⟨i, hi⟩ := steps_mem_cases v hv
    by_cases h0 : i.val = 0
    · exfalso
      apply hne
      rw [hi, h0]; rfl
    · have := prev_next_of_step ⟨i.val - 1, by omega⟩
      have hidx : i.val - 1 + 1 = i.val := by omega
      simp only [hidx] at this
      rw [hi]; exact this
  · unfold steps; decide

/-! ## The runs of `main`, case by case -/

theorem main_not_found (hid : Hid) (argv : List String)
    (h : (find_device_path hid kAppleStudioDisplay.vendorID
            kAppleStudioDisplay.productID 7).1 = none) :
    main hid argv =
      { calls := [HidCall.hid_init] ++
          (find_device_path hid kAppleStudioDisplay.vendorID
            kAppleStudioDisplay.productID 7).2 ++ [HidCall.hid_exit],
        out := "Could not find matching device/interface.\n",
        status := some EXIT_FAILURE } := by
  unfold main
  simp only [h]

theorem main_open_failed (hid : Hid) (argv : List String) (path : String)
    (hfound : (find_device_path hid kAppleStudioDisplay.vendorID
            kAppleStudioDisplay.productID 7).1 = some path)
    (hopen : hid.hid_open_path path = false) :
    main hid argv =
      { calls := [HidCall.hid_init, HidCall.hid_enumerate 0x05ac 0x1114,
                  HidCall.hid_free_enumeration, HidCall.hid_open_path path, HidCall.hid_exit],
        out := "Could not open device.\n",
        status := some EXIT_FAILURE } := by
  have hcalls := find_device_path_calls hid _ _ _ path hfound
  unfold main
  simp only [hfound, hcalls, hopen]
  simp [kAppleStudioDisplay]

theorem main_read_failed (hid : Hid) (argv : List String) (path : String)
    (hfound : (find_device_path hid kAppleStudioDisplay.vendorID
            kAppleStudioDisplay.productID 7).1 = some path)
    (hopen : hid.hid_open_path path = true)
    (hread : (get_brightness hid).1 = none) :
    main hid argv =
      { calls := [HidCall.hid_init, HidCall.hid_enumerate 0x05ac 0x1114,
                  HidCall.hid_free_enumeration, HidCall.hid_open_path path,
                  HidCall.hid_get_feature_report [0x1, 0, 0, 0, 0, 0, 0],
                  HidCall.hid_close, HidCall.hid_exit],
        out := "Could not read current brightness.\n",
        status := some EXIT_FAILURE } := by
  have hcalls := find_device_path_calls hid _ _ _ path hfound
  unfold main
  simp only [hfound, hcalls, hopen, hread, get_brightness_calls]
  simp [kAppleStudioDisplay]

theorem main_report (hid : Hid) (argv : List String) (path : String) (brightness : Nat)
    (h : ReadsBrightness hid path brightness) (hargc : argv.length < 2) :
    main hid argv =
      { calls := [HidCall.hid_init, HidCall.hid_enumerate 0x05ac 0x1114,
                  HidCall.hid_free_enumeration, HidCall.hid_open_path path,
                  HidCall.hid_get_feature_report [0x1, 0, 0, 0, 0, 0, 0],
                  HidCall.hid_close, HidCall.hid_exit],
        out := "current brightness: " ++ toString brightness ++ "\n",
        status := some EXIT_SUCCESS } := by
  obtain ⟨hfound, hopen, hread⟩ := h
  have hcalls := find_device_path_calls hid _ _ _ path hfound
  unfold main
  simp only [hfound, hcalls, hopen, hread, get_brightness_calls, hargc]
  simp [kAppleStudioDisplay]

/-- The run of a step command: `step` is the result of the table lookup. -/
theorem main_step_run (hid : Hid) (path : String) (step : Option Nat)
    (hrange : ∀ r, step = some r → 400 ≤ r ∧ r ≤ 60000) :
    (match step with
      | some r =>
        match set_brightness hid r with
        | none =>
          ({ calls := [HidCall.hid_init] ++ [HidCall.hid_enumerate 0x05ac 0x1114,
                HidCall.hid_free_enumeration] ++ [HidCall.hid_open_path path] ++
                [HidCall.hid_get_feature_report [0x1, 0, 0, 0, 0, 0, 0]],
             out := "", status := none } : Run)
        | some written =>
          { calls := [HidCall.hid_init] ++ [HidCall.hid_enumerate 0x05ac 0x1114,
                HidCall.hid_free_enumeration] ++ [HidCall.hid_open_path path] ++
                [HidCall.hid_get_feature_report [0x1, 0, 0, 0, 0, 0, 0]] ++ written.2 ++
                [HidCall.hid_close, HidCall.hid_exit],
            out := "", status := some EXIT_SUCCESS }
      | none =>
        { calls := [HidCall.hid_init] ++ [HidCall.hid_enumerate 0x05ac 0x1114,
              HidCall.hid_free_enumeration] ++ [HidCall.hid_open_path path] ++
              [HidCall.hid_get_feature_report [0x1, 0, 0, 0, 0, 0, 0]] ++
              [HidCall.hid_close, HidCall.hid_exit],
          out := "", status := some EXIT_SUCCESS }) =
      { calls := [HidCall.hid_init, HidCall.hid_enumerate 0x05ac 0x1114,
                  HidCall.hid_free_enumeration, HidCall.hid_open_path path,
                  HidCall.hid_get_feature_report [0x1, 0, 0, 0, 0, 0, 0]] ++
                 (match step with
                  | some r => [HidCall.hid_send_feature_report (set_brightness_buffer r)]
                  | none => []) ++
                 [HidCall.hid_close, HidCall.hid_exit],
        out := "", status := some EXIT_SUCCESS } := by
  cases step with
  | none => rfl
  | some r =>
    simp only [set_brightness_in_range hid r (hrange r rfl)]
    rfl

theorem main_increase (hid : Hid) (argv : List String) (path : String) (brightness : Nat)
    (h : ReadsBrightness hid path brightness) (hargc : 2 ≤ argv.length)
    (hinc : starts_with (argv.getD 1 "") "--inc" = true) :
    main hid argv =
      { calls := [HidCall.hid_init, HidCall.hid_enumerate 0x05ac 0x1114,
                  HidCall.hid_free_enumeration, HidCall.hid_open_path path,
                  HidCall.hid_get_feature_report [0x1, 0, 0, 0, 0, 0, 0]] ++
                 (match next_brightness brightness with
                  | some r => [HidCall.hid_send_feature_report (set_brightness_buffer r)]
                  | none => []) ++
                 [HidCall.hid_close, HidCall.hid_exit],
        out := "", status := some EXIT_SUCCESS } := by
  obtain ⟨hfound, hopen, hread⟩ := h
  have hcalls := find_device_path_calls hid _ _ _ path hfound
  have hlen : ¬ argv.length < 2 := by omega
  rw [← main_step_run hid path (next_brightness brightness)
    (fun r hr => next_brightness_range brightness r hr)]
  unfold main
  simp only [hfound, hcalls, hopen, hread, get_brightness_calls, hlen, hinc]
  simp [kAppleStudioDisplay]

theorem main_decrease (hid : Hid) (argv : List String) (path : String) (brightness : Nat)
    (h : ReadsBrightness hid path brightness) (hargc : 2 ≤ argv.length)
    (hinc : starts_with (argv.getD 1 "") "--inc" = false)
    (hdec : starts_with (argv.getD 1 "") "--dec" = true) :
    main hid argv =
      { calls := [HidCall.hid_init, HidCall.hid_enumerate 0x05ac 0x1114,
                  HidCall.hid_free_enumeration, HidCall.hid_open_path path,
                  HidCall.hid_get_feature_report [0x1, 0, 0, 0, 0, 0, 0]] ++
                 (match prev_brightness brightness with
                  | some r => [HidCall.hid_send_feature_report (set_brightness_buffer r)]
                  | none => []) ++
                 [HidCall.hid_close, HidCall.hid_exit],
        out := "", status := some EXIT_SUCCESS } := by
  obtain ⟨hfound, hopen, hread⟩ := h
  have hcalls := find_device_path_calls hid _ _ _ path hfound
  have hlen : ¬ argv.length < 2 := by omega
  rw [← main_step_run hid path (prev_brightness brightness)
    (fun r hr => prev_brightness_range brightness r hr)]
  unfold main
  simp only [hfound, hcalls, hopen, hread, get_brightness_calls, hlen, hinc, hdec]
  simp [kAppleStudioDisplay]

theorem main_usage (hid : Hid) (argv : List String) (path : String) (brightness : Nat)
    (h : ReadsBrightness hid path brightness) (hargc : 2 ≤ argv.length)
    (hinc : starts_with (argv.getD 1 "") "--inc" = false)
    (hdec : starts_with (argv.getD 1 "") "--dec" = false) :
    main hid argv =
      { calls := [HidCall.hid_init, HidCall.hid_enumerate 0x05ac 0x1114,
                  HidCall.hid_free_enumeration, HidCall.hid_open_path path,
                  HidCall.hid_get_feature_report [0x1, 0, 0, 0, 0, 0, 0],
                  HidCall.hid_close, HidCall.hid_exit],
        out := "Usage: " ++ argv.getD 0 "" ++ "[--increase|--decrease]\n",
        status := some EXIT_FAILURE } := by
  obtain ⟨hfound, hopen, hread⟩ := h
  have hcalls := find_device_path_calls hid _ _ _ path hfound
  have hlen : ¬ argv.length < 2 := by omega
  unfold main
  simp only [hfound, hcalls, hopen, hread, get_brightness_calls, hlen, hinc, hdec]
  simp [kAppleStudioDisplay]

/-- No token starts with both `--inc` and `--dec`. -/
theorem starts_with_dec_not_inc (arg : String) (hdec : starts_with arg "--dec" = true) :
    starts_with arg "--inc" = false := by
  unfold starts_with at hdec ⊢
  have hd : "--dec".toList = ['-', '-', 'd', 'e', 'c'] := rfl
  have hi : "--inc".toList = ['-', '-', 'i', 'n', 'c'] := rfl
  rw [hd] at hdec
  rw [hi]
  generalize arg.toList = l at hdec ⊢
  rcases l with _ | ⟨a, _ | ⟨b, _ | ⟨c, l⟩⟩⟩ <;> simp_all [List.isPrefixOf]
  intro _ _ hc
  rw [← hdec.2.2.1] at hc
  exact absurd hc (by decide)

/-! ## Runs at the table boundary and without a device -/

theorem find_device_path_calls_cases (hid : Hid) (vendorID productID : Nat) (interfaceID : Int) :
    (find_device_path hid vendorID productID interfaceID).2 =
        [HidCall.hid_enumerate vendorID productID] ∨
    (find_device_path hid vendorID productID interfaceID).2 =
        [HidCall.hid_enumerate vendorID productID, HidCall.hid_free_enumeration] := by
  unfold find_device_path
  dsimp only
  split
  · exact Or.inl rfl
  · exact Or.inr rfl

/-- C12: when discovery, open and read succeed and the brightness read is
60000 with a `--inc` token, or 400 with a `--dec` token, the run of `main`
contains no set-feature write and exits with `EXIT_SUCCESS`. -/
theorem main_boundary_no_write (hid : Hid) (argv : List String) (path : String)
    (brightness : Nat) (h : ReadsBrightness hid path brightness) (hargc : 2 ≤ argv.length)
    (hcase : (brightness = 60000 ∧ starts_with (argv.getD 1 "") "--inc" = true) ∨
             (brightness = 400 ∧ starts_with (argv.getD 1 "") "--dec" = true)) :
    (∀ buffer, HidCall.hid_send_feature_report buffer ∉ (main hid argv).calls) ∧
    (main hid argv).calls =
      [HidCall.hid_init, HidCall.hid_enumerate 0x05ac 0x1114,
       HidCall.hid_free_enumeration, HidCall.hid_open_path path,
       HidCall.hid_get_feature_report [0x1, 0, 0, 0, 0, 0, 0],
       HidCall.hid_close, HidCall.hid_exit] ∧
    (main hid argv).status = some EXIT_SUCCESS ∧ EXIT_SUCCESS = 0 := by
  have hmax : next_brightness 60000 = none := by decide
  have hmin : prev_brightness 400 = none := by decide
  rcases hcase with ⟨hb, hinc⟩ | ⟨hb, hdec⟩
  · subst hb
    rw [main_increase hid argv path 60000 h hargc hinc, hmax]
    exact ⟨fun buffer hmem => by simp at hmem, rfl, rfl, rfl⟩
  · subst hb
    rw [main_decrease hid argv path 400 h hargc
      (starts_with_dec_not_inc _ hdec) hdec, hmin]
    exact ⟨fun buffer hmem => by simp at hmem, rfl, rfl, rfl⟩

theorem main_boundary_no_write_witness :
    (ReadsBrightness (studioHostReporting 7 [0x01, 0x60, 0xEA, 0, 0, 0, 0]) "/dev/hidraw4" 60000 ∧
      starts_with "--increase" "--inc" = true ∧
      (main (studioHostReporting 7 [0x01, 0x60, 0xEA, 0, 0, 0, 0])
        ["hidbrightness", "--increase"]).status = some 0) ∧
    (ReadsBrightness (studioHostReporting 7 [0x01, 0x90, 0x01, 0, 0, 0, 0]) "/dev/hidraw4" 400 ∧
      starts_with "--decrease" "--dec" = true ∧
      (main (studioHostReporting 7 [0x01, 0x90, 0x01, 0, 0, 0, 0])
        ["hidbrightness", "--decrease"]).status = some 0) :=
  ⟨⟨⟨by decide, by decide, by decide⟩, by decide,
    (main_boundary_no_write (studioHostReporting 7 [0x01, 0x60, 0xEA, 0, 0, 0, 0])
      ["hidbrightness", "--increase"] "/dev/hidraw4" 60000
      ⟨by decide, by decide, by decide⟩ (by decide) (Or.inl ⟨rfl, by decide⟩)).2.2.1⟩,
   ⟨⟨by decide, by decide, by decide⟩, by decide,
    (main_boundary_no_write (studioHostReporting 7 [0x01, 0x90, 0x01, 0, 0, 0, 0])
      ["hidbrightness", "--decrease"] "/dev/hidraw4" 400
      ⟨by decide, by decide, by decide⟩ (by decide) (Or.inr ⟨rfl, by decide⟩)).2.2.1⟩⟩

/-- C14: when `find_device_path` returns no path, `main` prints the
device-not-found line and exits with `EXIT_FAILURE`, for every `argv`, and the
run contains no open, no feature-report read and no feature-report write. -/
theorem main_device_not_found (hid : Hid) (argv : List String)
    (hnone : (find_device_path hid kAppleStudioDisplay.vendorID
                kAppleStudioDisplay.productID 7).1 = none) :
    (main hid argv).out = "Could not find matching device/interface.\n" ∧
    (main hid argv).status = some EXIT_FAILURE ∧ EXIT_FAILURE ≠ 0 ∧
    (∀ path, HidCall.hid_open_path path ∉ (main hid argv).calls) ∧
    (∀ buffer, HidCall.hid_get_feature_report buffer ∉ (main hid argv).calls) ∧
    (∀ buffer, HidCall.hid_send_feature_report buffer ∉ (main hid argv).calls) := by
  rw [main_not_found hid argv hnone]
  refine ⟨rfl, rfl, by decide, ?_, ?_, ?_⟩ <;>
  · intro x hx
    rcases find_device_path_calls_cases hid kAppleStudioDisplay.vendorID
      kAppleStudioDisplay.productID 7 with hc | hc <;>
    · rw [hc] at hx
      simp at hx

theorem main_device_not_found_witness :
    ((find_device_path noDeviceHost kAppleStudioDisplay.vendorID
        kAppleStudioDisplay.productID 7).1 = none ∧
      (main noDeviceHost ["hidbrightness", "--increase"]).status = some 1) ∧
    ((find_device_path otherInterfaceHost kAppleStudioDisplay.vendorID
        kAppleStudioDisplay.productID 7).1 = none ∧
      (main otherInterfaceHost ["hidbrightness"]).status = some 1) :=
  ⟨⟨by decide, (main_device_not_found noDeviceHost ["hidbrightness", "--increase"]
      (by decide)).2.1⟩,
   ⟨by decide, (main_device_not_found otherInterfaceHost ["hidbrightness"] (by decide)).2.1⟩⟩

/-! ## Tokens that are no command -/

/-- C17 on the code: with the display attached, the program name
`hidbrightness` and the token `--foo`, the line printed has no space between
the program name and the bracket; the exit status is `EXIT_FAILURE`. -/
theorem usage_line_without_space :
    starts_with "--foo" "--inc" = false ∧ starts_with "--foo" "--dec" = false ∧
    ReadsBrightness studioHost "/dev/hidraw4" 8733 ∧
    (main studioHost ["hidbrightness", "--foo"]).out
      = "Usage: hidbrightness[--increase|--decrease]\n" ∧
    (main studioHost ["hidbrightness", "--foo"]).out
      ≠ "Usage: hidbrightness [--increase|--decrease]\n" ∧
    (main studioHost ["hidbrightness", "--foo"]).out
      ≠ "Usage: " ++ "hidbrightness" ++ " " ++ "[--increase|--decrease]" ∧
    (main studioHost ["hidbrightness", "--foo"]).status = some EXIT_FAILURE := by
  refine ⟨by decide, by decide, ⟨by decide, by decide, by decide⟩, by decide, by decide,
    by decide, by decide⟩

/-! ## Exit status and writes over all runs -/

/-- When discovery, open or read fails, the run ends with `EXIT_FAILURE` and
without a set-feature write. -/
theorem main_of_not_reads (hid : Hid) (argv : List String)
    (h : ¬ ∃ path brightness, ReadsBrightness hid path brightness) :
    (main hid argv).status = some EXIT_FAILURE ∧
    (main hid argv).calls.countP HidCall.is_send_feature_report = 0 := by
  cases hfound : (find_device_path hid kAppleStudioDisplay.vendorID
      kAppleStudioDisplay.productID 7).1 with
  | none =>
    rw [main_not_found hid argv hfound]
    refine ⟨rfl, ?_⟩
    rcases find_device_path_calls_cases hid kAppleStudioDisplay.vendorID
      kAppleStudioDisplay.productID 7 with hc | hc <;>
    · rw [hc]; rfl
  | some path =>
    cases hopen : hid.hid_open_path path with
    | false =>
      rw [main_open_failed hid argv path hfound hopen]
      exact ⟨rfl, rfl⟩
    | true =>
      cases hread : (get_brightness hid).1 with
      | none =>
        rw [main_read_failed hid argv path hfound hopen hread]
        exact ⟨rfl, rfl⟩
      | some brightness =>
        exact absurd ⟨path, brightness, hfound, hopen, hread⟩ h

/-- Whether discovery, open and read succeed does not depend on the answers to
feature-report writes. -/
theorem readsBrightness_of_send (hid : Hid) (send : List Nat → Int) (path : String)
    (brightness : Nat) :
    ReadsBrightness { hid with hid_send_feature_report := send } path brightness ↔
      ReadsBrightness hid path brightness :=
  Iff.rfl

/-- C15: for a token starting with `--inc` or with `--dec`, `main` exits with
`EXIT_SUCCESS` (0) exactly when discovery, open and read all succeed, and with
`EXIT_FAILURE` exactly when one of them fails; the exit status does not depend
on the answers to feature-report writes. -/
theorem main_step_exit_status (hid : Hid) (argv : List String) (hargc : 2 ≤ argv.length)
    (hcmd : starts_with (argv.getD 1 "") "--inc" = true ∨
            starts_with (argv.getD 1 "") "--dec" = true) :
    ((main hid argv).status = some EXIT_SUCCESS ↔
      ∃ path brightness, ReadsBrightness hid path brightness) ∧
    ((main hid argv).status = some EXIT_FAILURE ↔
      ¬ ∃ path brightness, ReadsBrightness hid path brightness) ∧
    (∀ send : List Nat → Int,
      (main { hid with hid_send_feature_report := send } argv).status
        = (main hid argv).status) ∧
    EXIT_SUCCESS = 0 ∧ EXIT_FAILURE ≠ 0 := by
  have hsucc : ∀ hid' : Hid, (∃ path brightness, ReadsBrightness hid' path brightness) →
      (main hid' argv).status = some EXIT_SUCCESS := by
    rintro hid' ⟨path, brightness, h⟩
    rcases hcmd with hinc | hdec
    · rw [main_increase hid' argv path brightness h hargc hinc]
    · rw [main_decrease hid' argv path brightness h hargc
        (starts_with_dec_not_inc _ hdec) hdec]
  refine ⟨?_, ?_, ?_, rfl, by decide⟩
  · constructor
    · intro hs
      by_contra hno
      rw [(main_of_not_reads hid argv hno).1] at hs
      exact absurd hs (by decide)
    · exact hsucc hid
  · constructor
    · intro hs hyes
      rw [hsucc hid hyes] at hs
      exact absurd hs (by decide)
    · intro hno
      exact (main_of_not_reads hid argv hno).1
  · intro send
    by_cases hyes : ∃ path brightness, ReadsBrightness hid path brightness
    · rw [hsucc hid hyes]
      obtain ⟨path, brightness, h⟩ := hyes
      exact hsucc { hid with hid_send_feature_report := send }
        ⟨path, brightness, (readsBrightness_of_send hid send path brightness).mpr h⟩
    · rw [(main_of_not_reads hid argv hyes).1]
      refine (main_of_not_reads { hid with hid_send_feature_report := send } argv ?_).1
      rintro ⟨path, brightness, h⟩
      exact hyes ⟨path, brightness, (readsBrightness_of_send hid send path brightness).mp h⟩

theorem main_step_exit_status_witness :
    (starts_with "--increase" "--inc" = true ∧
      ReadsBrightness studioHostWriteFailing "/dev/hidraw4" 8733 ∧
      studioHostWriteFailing.hid_send_feature_report [0x01, 0x90, 0x2B, 0, 0, 0, 0] = -1 ∧
      HidCall.hid_send_feature_report [0x01, 0x90, 0x2B, 0, 0, 0, 0] ∈
        (main studioHostWriteFailing ["hidbrightness", "--increase"]).calls) ∧
    (main studioHostWriteFailing ["hidbrightness", "--increase"]).status = some 0 :=
  ⟨⟨by decide, ⟨by decide, by decide, by decide⟩, by decide, by decide⟩,
   ((main_step_exit_status studioHostWriteFailing ["hidbrightness", "--increase"]
      (by decide) (Or.inl (by decide))).1).mpr
     ⟨"/dev/hidraw4", 8733, by decide, by decide, by decide⟩⟩

/-- The calls of a run of a step command: at most one write, between the read
and the close. -/
theorem main_step_calls (hid : Hid) (argv : List String) (path : String) (brightness : Nat)
    (h : ReadsBrightness hid path brightness) (hargc : 2 ≤ argv.length)
    (hcmd : starts_with (argv.getD 1 "") "--inc" = true ∨
            starts_with (argv.getD 1 "") "--dec" = true) :
    (main hid argv).calls =
        [HidCall.hid_init, HidCall.hid_enumerate 0x05ac 0x1114,
         HidCall.hid_free_enumeration, HidCall.hid_open_path path,
         HidCall.hid_get_feature_report [0x1, 0, 0, 0, 0, 0, 0],
         HidCall.hid_close, HidCall.hid_exit] ∨
    ∃ buffer, (main hid argv).calls =
        [HidCall.hid_init, HidCall.hid_enumerate 0x05ac 0x1114,
         HidCall.hid_free_enumeration, HidCall.hid_open_path path,
         HidCall.hid_get_feature_report [0x1, 0, 0, 0, 0, 0, 0],
         HidCall.hid_send_feature_report buffer,
         HidCall.hid_close, HidCall.hid_exit] := by
  rcases hcmd with hinc | hdec
  · rw [main_increase hid argv path brightness h hargc hinc]
    cases next_brightness brightness with
    | none => exact Or.inl rfl
    | some r => exact Or.inr ⟨_, rfl⟩
  · rw [main_decrease hid argv path brightness h hargc
      (starts_with_dec_not_inc _ hdec) hdec]
    cases prev_brightness brightness with
    | none => exact Or.inl rfl
    | some r => exact Or.inr ⟨_, rfl⟩

/-- C19: in every run of `main` at most one set-feature write is issued; when
one is issued, discovery, open and read have succeeded and the write follows
the enumeration, the open and the read in the run; and with fewer than two
arguments no write is issued. -/
theorem main_at_most_one_write (hid : Hid) (argv : List String) :
    (main hid argv).calls.countP HidCall.is_send_feature_report ≤ 1 ∧
    (∀ buffer, HidCall.hid_send_feature_report buffer ∈ (main hid argv).calls →
      ∃ path brightness, ReadsBrightness hid path brightness ∧ 2 ≤ argv.length ∧
        (main hid argv).calls =
          [HidCall.hid_init, HidCall.hid_enumerate 0x05ac 0x1114,
           HidCall.hid_free_enumeration, HidCall.hid_open_path path,
           HidCall.hid_get_feature_report [0x1, 0, 0, 0, 0, 0, 0],
           HidCall.hid_send_feature_report buffer,
           HidCall.hid_close, HidCall.hid_exit]) ∧
    (argv.length < 2 →
      ∀ buffer, HidCall.hid_send_feature_report buffer ∉ (main hid argv).calls) := by
  by_cases hyes : ∃ path brightness, ReadsBrightness hid path brightness
  · obtain ⟨path, brightness, h⟩ := hyes
    have hplain : (main hid argv).calls =
        [HidCall.hid_init, HidCall.hid_enumerate 0x05ac 0x1114,
         HidCall.hid_free_enumeration, HidCall.hid_open_path path,
         HidCall.hid_get_feature_report [0x1, 0, 0, 0, 0, 0, 0],
         HidCall.hid_close, HidCall.hid_exit] →
        (main hid argv).calls.countP HidCall.is_send_feature_report ≤ 1 ∧
        ∀ buffer, HidCall.hid_send_feature_report buffer ∉ (main hid argv).calls := by
      intro hc
      rw [hc]
      exact ⟨by simp [List.countP_cons, HidCall.is_send_feature_report],
        fun buffer hmem => by simp at hmem⟩
    by_cases hargc : argv.length < 2
    · have hc := congrArg Run.calls (main_report hid argv path brightness h hargc)
      have hp := hplain hc
      exact ⟨hp.1, fun buffer hmem => absurd hmem (hp.2 buffer), fun _ => hp.2⟩
    · have hargc' : 2 ≤ argv.length := by omega
      by_cases hcmd : starts_with (argv.getD 1 "") "--inc" = true ∨
          starts_with (argv.getD 1 "") "--dec" = true
      · rcases main_step_calls hid argv path brightness h hargc' hcmd with hc | ⟨sent, hc⟩
        · have hp := hplain hc
          exact ⟨hp.1, fun buffer hmem => absurd hmem (hp.2 buffer),
            fun hlt => absurd hlt hargc⟩
        · refine ⟨?_, ?_, fun hlt => absurd hlt hargc⟩
          · rw [hc]
            simp [List.countP_cons, HidCall.is_send_feature_report]
          · intro buffer hmem
            rw [hc] at hmem
            simp at hmem
            exact ⟨path, brightness, h, hargc', by rw [hc, hmem]⟩
      · have hinc : starts_with (argv.getD 1 "") "--inc" = false := by
          cases hb : starts_with (argv.getD 1 "") "--inc"
          · rfl
          · exact absurd (Or.inl hb) hcmd
        have hdec : starts_with (argv.getD 1 "") "--dec" = false := by
          cases hb : starts_with (argv.getD 1 "") "--dec"
          · rfl
          · exact absurd (Or.inr hb) hcmd
        have hc := congrArg Run.calls (main_usage hid argv path brightness h hargc' hinc hdec)
        have hp := hplain hc
        exact ⟨hp.1, fun buffer hmem => absurd hmem (hp.2 buffer),
          fun hlt => absurd hlt hargc⟩
  · have hzero := (main_of_not_reads hid argv hyes).2
    have hnone : ∀ buffer,
        HidCall.hid_send_feature_report buffer ∉ (main hid argv).calls := by
      intro buffer hmem
      have := (List.countP_eq_zero.mp hzero) _ hmem
      exact this rfl
    exact ⟨by omega, fun buffer hmem => absurd hmem (hnone buffer), fun _ => hnone⟩

/-! ## Tokens that are no command, on every host -/

end HidBrightness
